import Mathlib

/-!
# Carbonite emission ledger and aggregation engine: a shallow embedding

This file embeds the aggregation core of the Carbonite repository in Lean 4
and proves/refutes the frozen claims about it.

Data model (from the SQL migrations and `FINAL_SIMPLE_SOLUTION.sql`):
* `user_actions` rows carry an idempotency key (`action_id`), an owner
  (`user_id`), an exact decimal quantity and a verification flag.
* `user_stats` keeps one running total per user.
* `global_emissions` is a single row with the worldwide total.
* SQL `NUMERIC` values are exact decimals; they are modelled as `Rat`,
  which is exact and computable.

The embedded operations are translated from:
* `supabase/migrations/20251117175551_20251117_fix_function_volatility.sql`
  (final form of `sync_user_stats_on_action_insert` and
  `sync_global_emissions_on_stats_update`; the final trigger fires
  AFTER INSERT OR UPDATE on `user_stats`),
* the schema document embedded in the repository (`global_sync_trigger_function`,
  `sync_global_emissions_from_user_stats`, `hourly_sync_check`,
  `get_leaderboard`),
* `FINAL_SIMPLE_SOLUTION.sql` (`update_emission_totals`, `backfill_totals`),
* the `log_emission_atomic` transaction pseudocode in `list-active-users.mjs`,
* `src/services/emissionLogging.ts` (`logEmission` validation wrapper),
* `src/services/bulkSync.ts` (`bulkBackfillActions` verified-only filter).
-/

namespace Carbonite

/-- User identifiers (UUIDs in the database). -/
abbrev UserId := String

/-- Exact decimal quantities: SQL `NUMERIC(·,·)` modelled as `Rat`. -/
abbrev Lbs := Rat

/-- A `user_actions` row.  The two schema variants of the repository are
merged: the AI-verification schema stores `emissions_saved_lbs` plus a
`verified` flag, the app schema stores `custom_emissions_saved` and an
optional `action_template_id`.  Timestamps are logical clocks (`Nat`). -/
structure ActionRow where
  action_id : String
  user_id : UserId
  emissions_saved_lbs : Lbs := 0
  custom_emissions_saved : Option Lbs := none
  action_template_id : Option String := none
  verified : Bool := false
  verified_at : Option Nat := none
  logged_at : Nat := 0
deriving DecidableEq, Repr

/-- A `user_stats` row (per-user aggregate). -/
structure StatsRow where
  user_id : UserId
  total_lbs : Lbs
  action_count : Nat
  last_updated : Nat
deriving DecidableEq, Repr

/-- An `action_templates` row: `emissions_saved` is in kg. -/
structure Template where
  id : String
  emissions_saved : Lbs
deriving DecidableEq, Repr

/-- An audit/correction record as the spec's CorrectionRecord: previous and
corrected global totals plus the discrepancy magnitude. -/
structure CorrectionRec where
  previous_total : Lbs
  corrected_total : Lbs
  discrepancy : Lbs
deriving DecidableEq, Repr

/-- The database state: the `user_actions` ledger, the `user_stats` table,
the singleton `global_emissions` row (total and event count) and the audit
trail of correction records. -/
structure DBState where
  actions : List ActionRow
  stats : List StatsRow
  global_total : Lbs
  global_actions : Int
  corrections : List CorrectionRec
deriving DecidableEq, Repr

/-- The freshly migrated database: no events, no stats rows, and the
`global_emissions` row initialised to `(1, 0, 0)`. -/
def DBState.init : DBState := ⟨[], [], 0, 0, []⟩

/-- `SELECT total_lbs FROM user_stats WHERE user_id = uid` with 0 when the
row is absent (`COALESCE(..., 0)`); `user_id` is the primary key, so the
first matching row is the row. -/
def statTotal : List StatsRow → UserId → Lbs
  | [], _ => 0
  | r :: rs, uid => if r.user_id = uid then r.total_lbs else statTotal rs uid

/-- `SELECT action_count FROM user_stats WHERE user_id = uid`, 0 if absent. -/
def statCount : List StatsRow → UserId → Nat
  | [], _ => 0
  | r :: rs, uid => if r.user_id = uid then r.action_count else statCount rs uid

/-- A `user_stats` row for `uid` exists. -/
def ContainsUser (stats : List StatsRow) (uid : UserId) : Prop :=
  uid ∈ stats.map (·.user_id)

instance (stats : List StatsRow) (uid : UserId) : Decidable (ContainsUser stats uid) := by
  unfold ContainsUser
  infer_instance

/-- `SUM(total_lbs)` over `user_stats` (`COALESCE(SUM(..), 0)`). -/
def sumTotals (stats : List StatsRow) : Lbs :=
  (stats.map (·.total_lbs)).sum

/-- `INSERT INTO user_stats .. ON CONFLICT (user_id) DO UPDATE SET
total_lbs = user_stats.total_lbs + v, action_count = action_count + 1,
last_updated = now`: add `v` to the unique row for `uid`, creating it when
absent. -/
def upsertAddStats (uid : UserId) (v : Lbs) (now : Nat) : List StatsRow → List StatsRow
  | [] => [⟨uid, v, 1, now⟩]
  | r :: rs =>
    if r.user_id = uid then ⟨r.user_id, r.total_lbs + v, r.action_count + 1, now⟩ :: rs
    else r :: upsertAddStats uid v now rs

/-- `INSERT INTO user_stats .. ON CONFLICT (user_id) DO UPDATE SET
total_lbs = EXCLUDED.total_lbs, last_updated = now`: overwrite the total of
the unique row for `uid`, creating it when absent (backfill upsert). -/
def upsertSetStats (uid : UserId) (v : Lbs) (now : Nat) : List StatsRow → List StatsRow
  | [] => [⟨uid, v, 0, now⟩]
  | r :: rs =>
    if r.user_id = uid then ⟨r.user_id, v, r.action_count, now⟩ :: rs
    else r :: upsertSetStats uid v now rs

/-- There is a committed `user_actions` row with this idempotency key. -/
def HasAction (actions : List ActionRow) (aid : String) : Prop :=
  ∃ a ∈ actions, a.action_id = aid

instance (actions : List ActionRow) (aid : String) : Decidable (HasAction actions aid) :=
  List.decidableBEx _ actions

/-- The kg→lbs conversion constant `2.20462` used by the triggers. -/
def kgToLbs : Lbs := 220462 / 100000

/-- Template branch of the `v_lbs` computation:
`COALESCE(emissions_saved * 2.20462, 0)` for the referenced template row
(0 when the action references no template or a missing template). -/
def templateLbs (tmpls : List Template) (a : ActionRow) : Lbs :=
  match a.action_template_id with
  | some tid => (((tmpls.find? (fun t => decide (t.id = tid))).map (·.emissions_saved)).getD 0) * kgToLbs
  | none => 0

/-- The `v_lbs` computation shared by `sync_user_stats_on_action_insert`
(migration `20251117175551`), `update_emission_totals` and the CASE
expression of `backfill_totals` (`FINAL_SIMPLE_SOLUTION.sql`):
`custom_emissions_saved` when it is non-null and positive, otherwise the
referenced template's `emissions_saved` converted kg→lbs, otherwise 0. -/
def calc_v_lbs (tmpls : List Template) (a : ActionRow) : Lbs :=
  match a.custom_emissions_saved with
  | some c => if 0 < c then c else templateLbs tmpls a
  | none => templateLbs tmpls a

/-- `sync_user_stats_on_action_insert` (final form, migration
`20251117175551`): AFTER INSERT on `user_actions`, compute `v_lbs` and,
only if `v_lbs > 0`, upsert the owner's `user_stats` row. -/
def sync_user_stats_on_action_insert (tmpls : List Template) (a : ActionRow) (now : Nat)
    (stats : List StatsRow) : List StatsRow :=
  let v := calc_v_lbs tmpls a
  if 0 < v then upsertAddStats a.user_id v now stats else stats

/-- `sync_global_emissions_on_stats_update` (final form, migration
`20251117175551`): AFTER INSERT OR UPDATE on `user_stats`, add
`NEW.total_lbs - COALESCE(OLD.total_lbs, 0)` to the global row when the
difference is non-zero (on INSERT the OLD total coalesces to 0). -/
def sync_global_emissions_on_stats_update (oldTotal newTotal : Lbs) (oldCount newCount : Nat)
    (g : Lbs) (gActions : Int) : Lbs × Int :=
  let diff := newTotal - oldTotal
  if diff ≠ 0 then (g + diff, gActions + ((newCount : Int) - (oldCount : Int)))
  else (g, gActions)

/-- One raw insertion into `user_actions` under the migration triggers:
the row is inserted, `trigger_sync_user_stats` fires, and any resulting
`user_stats` insert/update fires `trigger_sync_global_emissions`. -/
def insert_action_migration (tmpls : List Template) (a : ActionRow) (now : Nat)
    (s : DBState) : DBState :=
  let oldT := statTotal s.stats a.user_id
  let oldC := statCount s.stats a.user_id
  let stats1 := sync_user_stats_on_action_insert tmpls a now s.stats
  let newT := statTotal stats1 a.user_id
  let newC := statCount stats1 a.user_id
  let g1 := sync_global_emissions_on_stats_update oldT newT oldC newC s.global_total s.global_actions
  { s with actions := a :: s.actions, stats := stats1, global_total := g1.1, global_actions := g1.2 }

/-- `update_emission_totals` (`FINAL_SIMPLE_SOLUTION.sql`): AFTER INSERT on
`user_actions`, compute `v_lbs`; if `v_lbs > 0`, upsert the owner's
`user_stats` row and add `v_lbs` to `global_emissions` in the same trigger.
(The `user_stats` variant of that file has no `action_count` column; the
count carried by the unified `StatsRow` is inert for this path.) -/
def update_emission_totals (tmpls : List Template) (a : ActionRow) (now : Nat)
    (s : DBState) : DBState :=
  let v := calc_v_lbs tmpls a
  if 0 < v then
    { s with actions := a :: s.actions,
             stats := upsertAddStats a.user_id v now s.stats,
             global_total := s.global_total + v }
  else { s with actions := a :: s.actions }

/-- `global_sync_trigger_function` (AI-verification schema): fires when an
action's `verified` flag transitions false→true; adds
`NEW.emissions_saved_lbs` to the owner's `user_stats` row and to
`global_emissions` in one transaction. -/
def global_sync_trigger_function (oldRow newRow : ActionRow) (now : Nat) (s : DBState) : DBState :=
  if newRow.verified = true ∧ oldRow.verified = false then
    { s with stats := upsertAddStats newRow.user_id newRow.emissions_saved_lbs now s.stats,
             global_total := s.global_total + newRow.emissions_saved_lbs,
             global_actions := s.global_actions + 1 }
  else s

/-- Set `verified = TRUE, verified_at = now` on the unique row with this
`action_id` (the UPDATE that fires `global_sync_trigger`). -/
def setVerified (aid : String) (now : Nat) : List ActionRow → List ActionRow
  | [] => []
  | a :: rest =>
    if a.action_id = aid then { a with verified := true, verified_at := some now } :: rest
    else a :: setVerified aid now rest

/-- Verifying an action: the UPDATE on `user_actions` plus the
`global_sync_trigger` it fires (WHEN NEW.verified AND NOT OLD.verified). -/
def verify_action (aid : String) (now : Nat) (s : DBState) : DBState :=
  match s.actions.find? (fun a => decide (a.action_id = aid)) with
  | none => s
  | some old =>
    let newRow : ActionRow := { old with verified := true, verified_at := some now }
    global_sync_trigger_function old newRow now { s with actions := setVerified aid now s.actions }

/-- Result row of `sync_global_emissions_from_user_stats`. -/
structure ReconcileRow where
  was_in_sync : Bool
  user_stats_sum : Lbs
  global_total : Lbs
  fixed : Bool
deriving DecidableEq, Repr

/-- `sync_global_emissions_from_user_stats` (AI-verification schema): compute
`S = SUM(user_stats.total_lbs)` and `G = global_emissions.total_lbs_saved`;
when they differ exactly, set the global total to `S`; report
`(was_in_sync, S, G, fixed)`. -/
def sync_global_emissions_from_user_stats (s : DBState) : ReconcileRow × DBState :=
  let stats_sum := sumTotals s.stats
  let global_val := s.global_total
  if stats_sum = global_val then
    (⟨true, stats_sum, global_val, false⟩, s)
  else
    (⟨false, stats_sum, global_val, true⟩, { s with global_total := stats_sum })

/-- JS `toFixed(2)` followed by `parseFloat`: rounding an exact decimal to 2
decimal places (nearest, half up; the counterexamples below avoid ties). -/
def round2 (q : Lbs) : Lbs := ((round (q * 100) : Int) : Rat) / 100

/-- The JSON report built by `hourly_sync_check`. -/
structure SyncReport where
  was_in_sync : Bool
  user_stats_sum : Lbs
  global_total : Lbs
  discrepancy : Lbs
  fixed : Bool
  in_sync : Bool
deriving DecidableEq, Repr

/-- `hourly_sync_check` (AI-verification schema): run
`sync_global_emissions_from_user_stats`, compute the absolute discrepancy and
build the 2-dp report JSON.  On a mismatch the source only emits
`RAISE WARNING`; the insert into an audit-log table is commented out, so the
corrections trail is untouched. -/
def hourly_sync_check (s : DBState) : SyncReport × DBState :=
  let res := sync_global_emissions_from_user_stats s
  let cr := res.1
  let discrepancy := |cr.user_stats_sum - cr.global_total|
  (⟨cr.was_in_sync, round2 cr.user_stats_sum, round2 cr.global_total,
    round2 discrepancy, cr.fixed,
    decide (round2 cr.user_stats_sum = round2 cr.global_total)⟩, res.2)

/-- Result of `log_emission_atomic`. -/
structure LogResult where
  user_total_lbs : Lbs
  global_total_lbs : Lbs
  is_duplicate : Bool
deriving DecidableEq, Repr

/-- The `log_emission_atomic` transaction (pseudocode in
`list-active-users.mjs`): under the `action_id` uniqueness guard, a call with
an already-committed key returns the current totals with
`is_duplicate = true` and changes nothing; otherwise the event insert, the
`user_stats` upsert and the `global_emissions` increment commit together.
The FOR UPDATE row locks serialise concurrent calls, so the sequential model
covers interleaved submissions. -/
def log_emission_atomic (aid : String) (uid : UserId) (lbs : Lbs) (now : Nat)
    (s : DBState) : LogResult × DBState :=
  if HasAction s.actions aid then
    (⟨statTotal s.stats uid, s.global_total, true⟩, s)
  else
    let a : ActionRow :=
      { action_id := aid, user_id := uid, emissions_saved_lbs := lbs,
        verified := true, verified_at := some now, logged_at := now }
    let stats1 := upsertAddStats uid lbs now s.stats
    let s1 : DBState :=
      { s with actions := a :: s.actions, stats := stats1,
               global_total := s.global_total + lbs,
               global_actions := s.global_actions + 1 }
    (⟨statTotal stats1 uid, s1.global_total, false⟩, s1)

/-- Request of `logEmission` (`src/services/emissionLogging.ts`); a `none`
quantity models the `undefined` field of the TS interface. -/
structure EmissionLogRequest where
  action_id : String
  user_id : String
  emissions_lbs : Option Lbs
deriving DecidableEq, Repr

/-- Response of `logEmission`. -/
structure EmissionLogResponse where
  success : Bool
  user_total_lbs : Lbs
  global_total_lbs : Lbs
  is_duplicate : Bool
deriving DecidableEq, Repr

/-- The error response produced by the catch block of `logEmission`. -/
def emissionLogFailure : EmissionLogResponse := ⟨false, 0, 0, false⟩

/-- `logEmission` (`src/services/emissionLogging.ts`): reject a missing
`action_id`/`user_id`/quantity (`!request.action_id || !request.user_id ||
request.emissions_lbs === undefined`, the empty string being falsy) or a
negative quantity before any database call; otherwise run
`log_emission_atomic`. -/
def logEmission (req : EmissionLogRequest) (now : Nat) (s : DBState) :
    EmissionLogResponse × DBState :=
  if req.action_id = "" ∨ req.user_id = "" ∨ req.emissions_lbs = none then
    (emissionLogFailure, s)
  else if req.emissions_lbs.getD 0 < 0 then
    (emissionLogFailure, s)
  else
    let res := log_emission_atomic req.action_id req.user_id (req.emissions_lbs.getD 0) now s
    (⟨true, res.1.user_total_lbs, res.1.global_total_lbs, res.1.is_duplicate⟩, res.2)

/-- A row of `backfill_totals`' `user_totals` CTE qualifies: positive
`custom_emissions_saved` or a non-null `action_template_id`. -/
def action_qualifies (a : ActionRow) : Bool :=
  (match a.custom_emissions_saved with
   | some c => decide (0 < c)
   | none => false) || a.action_template_id.isSome

/-- Per-user sum of the `user_totals` CTE of `backfill_totals`: the CASE
value over that user's qualifying rows. -/
def backfill_user_total (tmpls : List Template) (actions : List ActionRow) (u : UserId) : Lbs :=
  ((actions.filter (fun a => action_qualifies a && decide (a.user_id = u))).map
    (calc_v_lbs tmpls)).sum

/-- Overwrite the `user_stats` totals of the listed users with the values of
`f` (the recompute upsert loop shared by `backfill_totals` and the bulk
backfill). -/
def setUserTotals (f : UserId → Lbs) (now : Nat) (users : List UserId)
    (stats : List StatsRow) : List StatsRow :=
  users.foldl (fun st u => upsertSetStats u (f u) now st) stats

/-- `backfill_totals` (`FINAL_SIMPLE_SOLUTION.sql`): overwrite the
`user_stats` total of every user with a qualifying row with the recomputed
sum from `user_actions`, then set the global total to
`SUM(user_stats.total_lbs)`. -/
def backfill_totals (tmpls : List Template) (now : Nat) (s : DBState) : DBState :=
  let contributing := ((s.actions.filter action_qualifies).map (·.user_id)).dedup
  let stats1 := setUserTotals (backfill_user_total tmpls s.actions) now contributing s.stats
  { s with stats := stats1, global_total := sumTotals stats1 }

/-- An element of the JSONB batch sent to the bulk-backfill RPC
(`ActionLog` in `src/services/bulkSync.ts`). -/
structure BulkActionLog where
  action_id : String
  user_id : UserId
  lbs : Lbs
  logged_at : Nat
  verified : Bool
deriving DecidableEq, Repr

/-- The `user_actions` row inserted for a batch element. -/
def BulkActionLog.toActionRow (e : BulkActionLog) : ActionRow :=
  { action_id := e.action_id, user_id := e.user_id, emissions_saved_lbs := e.lbs,
    verified := e.verified, verified_at := some e.logged_at, logged_at := e.logged_at }

/-- Result of the bulk-backfill RPC (`BulkBackfillResponse` fields of
`src/services/bulkSync.ts`). -/
structure BulkBackfillResult where
  inserted_count : Nat
  skipped_count : Nat
  global_total_lbs : Lbs
  affected_users : Nat
deriving DecidableEq, Repr

/-- Insert phase of the bulk backfill: each event is inserted under the
`action_id` uniqueness guard; an already-present key is silently skipped.
Returns the new state with the inserted and skipped counts. -/
def bulk_insert : List BulkActionLog → DBState → DBState × Nat × Nat
  | [], s => (s, 0, 0)
  | e :: es, s =>
    if HasAction s.actions e.action_id then
      let rest := bulk_insert es s
      (rest.1, rest.2.1, rest.2.2 + 1)
    else
      let rest := bulk_insert es { s with actions := e.toActionRow :: s.actions }
      (rest.1, rest.2.1 + 1, rest.2.2)

/-- Exact sum of a user's committed (verified) events in the ledger. -/
def verifiedUserSum (actions : List ActionRow) (u : UserId) : Lbs :=
  ((actions.filter (fun a => a.verified && decide (a.user_id = u))).map
    (·.emissions_saved_lbs)).sum

/-- Modelled from the spec: the SQL function `bulk_backfill_actions` called
by `bulkBackfillActions` (`src/services/bulkSync.ts`) is not part of the
source tree — only its TypeScript caller is.  Per spec §4.2, it inserts each
event under the same idempotency-key uniqueness guard as single ingestion
(duplicates silently skipped, not errors), then, instead of adding the
batch's quantities incrementally, recomputes every touched user's total as
the exact sum of that user's committed events and recomputes the global
total as the exact sum of all per-user totals, returning
`{insertedCount, skippedCount, globalTotal, affectedUsers}`. -/
def bulk_backfill_actions (batch : List BulkActionLog) (now : Nat) (s : DBState) :
    BulkBackfillResult × DBState :=
  let ins := bulk_insert batch s
  let s1 := ins.1
  let touched := (batch.map (·.user_id)).dedup
  let stats1 := setUserTotals (verifiedUserSum s1.actions) now touched s1.stats
  let s2 := { s1 with stats := stats1, global_total := sumTotals stats1 }
  (⟨ins.2.1, ins.2.2, s2.global_total, touched.length⟩, s2)

/-- `bulkBackfillActions` (`src/services/bulkSync.ts`): the TypeScript
wrapper filters the batch to `verified === true` actions before invoking the
bulk-backfill RPC. -/
def bulkBackfillActions (batch : List BulkActionLog) (now : Nat) (s : DBState) :
    BulkBackfillResult × DBState :=
  bulk_backfill_actions (batch.filter (·.verified)) now s

/-- The `ranked_users` key of `get_leaderboard` (AI-verification schema):
the user, the exact total and the tie-break timestamp. -/
structure LBKey where
  user_id : UserId
  total_lbs : Lbs
  tie_ts : Nat
deriving DecidableEq, Repr

/-- `COALESCE(MAX(verified_at) over the user's verified actions,
last_updated)`: the tie-break timestamp of `get_leaderboard`. -/
def last_verified_action_at (actions : List ActionRow) (row : StatsRow) : Nat :=
  let ts := (actions.filter (fun a => a.verified && decide (a.user_id = row.user_id))).filterMap
    (·.verified_at)
  if ts.isEmpty then row.last_updated else ts.foldl Nat.max 0

/-- The ORDER BY of `get_leaderboard`: `total_emissions_lbs DESC,
last_verified_action_at DESC`.  `lbBefore a b` holds when `a` may appear at
or before `b`; full ties (equal total and timestamp) are related both ways,
so this is a total preorder but not antisymmetric. -/
def lbBefore (a b : LBKey) : Prop :=
  b.total_lbs < a.total_lbs ∨ (a.total_lbs = b.total_lbs ∧ b.tie_ts ≤ a.tie_ts)

instance : DecidableRel lbBefore := fun a b =>
  decidable_of_iff (b.total_lbs < a.total_lbs ∨ (a.total_lbs = b.total_lbs ∧ b.tie_ts ≤ a.tie_ts))
    Iff.rfl

instance : IsTotal LBKey lbBefore where
  total a b := by
    rcases lt_trichotomy a.total_lbs b.total_lbs with h | h | h
    · exact Or.inr (Or.inl h)
    · rcases Nat.le_total a.tie_ts b.tie_ts with ht | ht
      · exact Or.inr (Or.inr ⟨h.symm, ht⟩)
      · exact Or.inl (Or.inr ⟨h, ht⟩)
    · exact Or.inl (Or.inl h)

instance : IsTrans LBKey lbBefore where
  trans a b c hab hbc := by
    rcases hab with h1 | ⟨h1, t1⟩ <;> rcases hbc with h2 | ⟨h2, t2⟩
    · exact Or.inl (h2.trans h1)
    · exact Or.inl (h2 ▸ h1)
    · exact Or.inl (h1 ▸ h2)
    · exact Or.inr ⟨h1.trans h2, t2.trans t1⟩

/-- The sorted `ranked_users` rows of `get_leaderboard`: `user_stats` rows
with `total_emissions_lbs > 0`, keyed and ordered by the exact total
descending, then the last verified-action timestamp descending.  SQL gives
no further ordering key, which the list embedding renders as stability of
the sort with respect to the underlying row order. -/
def get_leaderboard_keys (s : DBState) : List LBKey :=
  let rows := s.stats.filter (fun r => decide (0 < r.total_lbs))
  let keys := rows.map (fun r => LBKey.mk r.user_id r.total_lbs (last_verified_action_at s.actions r))
  List.insertionSort lbBefore keys

/-- A returned leaderboard row: `ROW_NUMBER()` rank and the total rounded to
2 decimals (`ROUND(total_emissions_lbs, 2)`). -/
structure LBEntry where
  rank : Nat
  user_id : UserId
  total_emissions_lbs : Lbs
deriving DecidableEq, Repr

/-- `ROW_NUMBER() OVER (ORDER BY ...)`: consecutive ranks from `n`. -/
def rankFrom (n : Nat) : List LBKey → List LBEntry
  | [] => []
  | k :: ks => ⟨n, k.user_id, round2 k.total_lbs⟩ :: rankFrom (n + 1) ks

/-- `get_leaderboard(limit_count)` (AI-verification schema): the sorted
positive-total rows, truncated by LIMIT, with ranks 1, 2, 3, …. -/
def get_leaderboard (limit : Nat) (s : DBState) : List LBEntry :=
  rankFrom 1 ((get_leaderboard_keys s).take limit)

/-- `getUserTotalEmissions` (`src/services/emissionLogging.ts`): reads
`user_stats.total_emissions_lbs` and returns `toString()` of the stored
NUMERIC — the exact stored decimal, unrounded. -/
def getUserTotalEmissions (s : DBState) (uid : UserId) : Lbs :=
  statTotal s.stats uid

/-- `getGlobalTotalEmissionsExact` (`src/services/emissionLogging.ts`):
`toString()` of the stored global NUMERIC — exact, unrounded. -/
def getGlobalTotalEmissionsExact (s : DBState) : Lbs :=
  s.global_total

/-- The value a leaderboard total crosses the API boundary as
(`getLeaderboard` in `src/services/bulkSync.ts`):
`parseFloat(entry.total_emissions_lbs?.toFixed(2) || '0')`, i.e. a binary
float rounded to 2 decimal places. -/
def leaderboard_api_total (q : Lbs) : Lbs := round2 q

/-- `getGlobalTotalEmissions` (leaderboard service):
`parseFloat(total.toFixed(2))` of the stored global total. -/
def getGlobalTotalEmissions (s : DBState) : Lbs := round2 s.global_total

/-- The aggregate-updating operations of the system, used to define the
reachable states for the global-consistency invariant: raw insertion under
the migration trigger pair, insertion under `update_emission_totals`, the
verified-transition trigger, the atomic submission transaction, backfill
recompute, and the two reconciliation entry points. -/
inductive Op where
  | insertMigration (tmpls : List Template) (a : ActionRow) (now : Nat)
  | insertFinal (tmpls : List Template) (a : ActionRow) (now : Nat)
  | verify (aid : String) (now : Nat)
  | logAtomic (aid : String) (uid : UserId) (lbs : Lbs) (now : Nat)
  | logEmissionOp (req : EmissionLogRequest) (now : Nat)
  | bulkBackfill (batch : List BulkActionLog) (now : Nat)
  | backfill (tmpls : List Template) (now : Nat)
  | reconcile
  | hourlyCheck

/-- Apply one operation to the database state. -/
def applyOp : Op → DBState → DBState
  | .insertMigration tmpls a now, s => insert_action_migration tmpls a now s
  | .insertFinal tmpls a now, s => update_emission_totals tmpls a now s
  | .verify aid now, s => verify_action aid now s
  | .logAtomic aid uid lbs now, s => (log_emission_atomic aid uid lbs now s).2
  | .logEmissionOp req now, s => (logEmission req now s).2
  | .bulkBackfill batch now, s => (bulkBackfillActions batch now s).2
  | .backfill tmpls now, s => backfill_totals tmpls now s
  | .reconcile, s => (sync_global_emissions_from_user_stats s).2
  | .hourlyCheck, s => (hourly_sync_check s).2

/-- Run a sequence of operations from the freshly migrated database. -/
def runOps (ops : List Op) : DBState :=
  ops.foldl (fun s op => applyOp op s) DBState.init

/-- Invariant 1 of the spec: the global aggregate equals the sum of the
per-user aggregates, as exact decimals. -/
def GlobalInvariant (s : DBState) : Prop :=
  s.global_total = sumTotals s.stats

/-! ## Helper lemmas about the `user_stats` upserts -/

lemma sumTotals_nil : sumTotals [] = 0 := rfl

lemma sumTotals_cons (r : StatsRow) (rs : List StatsRow) :
    sumTotals (r :: rs) = r.total_lbs + sumTotals rs := by
  simp [sumTotals]

lemma sumTotals_upsertAddStats (uid : UserId) (v : Lbs) (now : Nat) (stats : List StatsRow) :
    sumTotals (upsertAddStats uid v now stats) = sumTotals stats + v := by
  induction stats with
  | nil => simp [upsertAddStats, sumTotals]
  | cons r rs ih =>
    by_cases h : r.user_id = uid
    · simp [upsertAddStats, h, sumTotals_cons]
      ring
    · simp [upsertAddStats, h, sumTotals_cons, ih]
      ring

lemma statTotal_upsertAddStats_self (uid : UserId) (v : Lbs) (now : Nat)
    (stats : List StatsRow) :
    statTotal (upsertAddStats uid v now stats) uid = statTotal stats uid + v := by
  induction stats with
  | nil => simp [upsertAddStats, statTotal]
  | cons r rs ih =>
    by_cases h : r.user_id = uid
    · simp [upsertAddStats, h, statTotal]
    · simp [upsertAddStats, h, statTotal, ih]

lemma statTotal_upsertSetStats_self (uid : UserId) (v : Lbs) (now : Nat)
    (stats : List StatsRow) :
    statTotal (upsertSetStats uid v now stats) uid = v := by
  induction stats with
  | nil => simp [upsertSetStats, statTotal]
  | cons r rs ih =>
    by_cases h : r.user_id = uid
    · simp [upsertSetStats, h, statTotal]
    · simp [upsertSetStats, h, statTotal, ih]

lemma statTotal_upsertSetStats_other {uid u : UserId} (h : u ≠ uid) (v : Lbs) (now : Nat)
    (stats : List StatsRow) :
    statTotal (upsertSetStats uid v now stats) u = statTotal stats u := by
  induction stats with
  | nil =>
    have h1 : uid ≠ u := fun hh => h hh.symm
    simp [upsertSetStats, statTotal, h1]
  | cons r rs ih =>
    have h3 : uid ≠ u := fun hh => h hh.symm
    by_cases hr : r.user_id = uid
    · simp [upsertSetStats, hr, statTotal, h3, h]
    · by_cases hu : r.user_id = u
      · simp [upsertSetStats, hr, statTotal, hu, h, h3]
      · simp [upsertSetStats, hr, statTotal, hu, ih, h, h3]

lemma containsUser_upsertSetStats (uid u : UserId) (v : Lbs) (now : Nat)
    (stats : List StatsRow) :
    ContainsUser (upsertSetStats uid v now stats) u ↔ (ContainsUser stats u ∨ u = uid) := by
  induction stats with
  | nil => simp [upsertSetStats, ContainsUser]
  | cons r rs ih =>
    by_cases hr : r.user_id = uid
    · simp only [upsertSetStats, if_pos hr, ContainsUser, List.map_cons, List.mem_cons] at *
      rw [hr]
      tauto
    · simp only [upsertSetStats, if_neg hr, ContainsUser, List.map_cons, List.mem_cons] at *
      rw [ih]
      tauto

/-! ## The global-consistency invariant (claim C1) -/

lemma insert_action_migration_invariant (tmpls : List Template) (a : ActionRow) (now : Nat)
    (s : DBState) (h : GlobalInvariant s) :
    GlobalInvariant (insert_action_migration tmpls a now s) := by
  unfold GlobalInvariant insert_action_migration sync_user_stats_on_action_insert
    sync_global_emissions_on_stats_update at *
  by_cases hv : 0 < calc_v_lbs tmpls a
  · have hne : calc_v_lbs tmpls a ≠ 0 := ne_of_gt hv
    simp only [if_pos hv, statTotal_upsertAddStats_self, sumTotals_upsertAddStats]
    simp [add_sub_cancel_left, hne, h]
  · simp [if_neg hv, h]

lemma update_emission_totals_invariant (tmpls : List Template) (a : ActionRow) (now : Nat)
    (s : DBState) (h : GlobalInvariant s) :
    GlobalInvariant (update_emission_totals tmpls a now s) := by
  unfold GlobalInvariant update_emission_totals at *
  by_cases hv : 0 < calc_v_lbs tmpls a
  · simp [if_pos hv, sumTotals_upsertAddStats, h]
  · simp [if_neg hv, h]

lemma global_sync_trigger_function_invariant (oldRow newRow : ActionRow) (now : Nat)
    (s : DBState) (h : GlobalInvariant s) :
    GlobalInvariant (global_sync_trigger_function oldRow newRow now s) := by
  unfold GlobalInvariant global_sync_trigger_function at *
  by_cases hc : newRow.verified = true ∧ oldRow.verified = false
  · simp [if_pos hc, sumTotals_upsertAddStats, h]
  · simp [if_neg hc, h]

lemma verify_action_invariant (aid : String) (now : Nat) (s : DBState)
    (h : GlobalInvariant s) : GlobalInvariant (verify_action aid now s) := by
  unfold verify_action
  cases hf : s.actions.find? (fun a => decide (a.action_id = aid)) with
  | none => exact h
  | some old => exact global_sync_trigger_function_invariant _ _ _ _ h

lemma log_emission_atomic_invariant (aid : String) (uid : UserId) (lbs : Lbs) (now : Nat)
    (s : DBState) (h : GlobalInvariant s) :
    GlobalInvariant (log_emission_atomic aid uid lbs now s).2 := by
  unfold GlobalInvariant log_emission_atomic at *
  by_cases hd : HasAction s.actions aid
  · simp [if_pos hd, h]
  · simp [if_neg hd, sumTotals_upsertAddStats, h]

lemma logEmission_invariant (req : EmissionLogRequest) (now : Nat) (s : DBState)
    (h : GlobalInvariant s) : GlobalInvariant (logEmission req now s).2 := by
  unfold logEmission
  by_cases h1 : req.action_id = "" ∨ req.user_id = "" ∨ req.emissions_lbs = none
  · simpa [if_pos h1] using h
  · by_cases h2 : req.emissions_lbs.getD 0 < 0
    · simpa [if_neg h1, if_pos h2] using h
    · simpa [if_neg h1, if_neg h2] using
        log_emission_atomic_invariant req.action_id req.user_id (req.emissions_lbs.getD 0) now s h

lemma bulk_backfill_actions_invariant (batch : List BulkActionLog) (now : Nat) (s : DBState) :
    GlobalInvariant (bulk_backfill_actions batch now s).2 := by
  unfold GlobalInvariant bulk_backfill_actions
  rfl

lemma backfill_totals_invariant (tmpls : List Template) (now : Nat) (s : DBState) :
    GlobalInvariant (backfill_totals tmpls now s) := by
  unfold GlobalInvariant backfill_totals
  rfl

lemma reconcile_invariant (s : DBState) (_h : GlobalInvariant s) :
    GlobalInvariant (sync_global_emissions_from_user_stats s).2 := by
  unfold GlobalInvariant sync_global_emissions_from_user_stats at *
  by_cases he : sumTotals s.stats = s.global_total
  · simp [if_pos he, he]
  · simp [if_neg he]

lemma hourly_sync_check_invariant (s : DBState) (h : GlobalInvariant s) :
    GlobalInvariant (hourly_sync_check s).2 := by
  unfold hourly_sync_check
  exact reconcile_invariant s h

lemma applyOp_invariant (op : Op) (s : DBState) (h : GlobalInvariant s) :
    GlobalInvariant (applyOp op s) := by
  cases op with
  | insertMigration tmpls a now => exact insert_action_migration_invariant tmpls a now s h
  | insertFinal tmpls a now => exact update_emission_totals_invariant tmpls a now s h
  | verify aid now => exact verify_action_invariant aid now s h
  | logAtomic aid uid lbs now => exact log_emission_atomic_invariant aid uid lbs now s h
  | logEmissionOp req now => exact logEmission_invariant req now s h
  | bulkBackfill batch now => exact bulk_backfill_actions_invariant _ now s
  | backfill tmpls now => exact backfill_totals_invariant tmpls now s
  | reconcile => exact reconcile_invariant s h
  | hourlyCheck => exact hourly_sync_check_invariant s h

/-- C1: for every reachable quiescent state of the system the global
aggregate total `global_emissions.total_lbs_saved` equals the exact-decimal
sum of the per-user `user_stats` totals, and every aggregate-updating
operation — single submission via the insert/update triggers (both the
migration trigger pair and `update_emission_totals`), the verified-transition
trigger, the atomic submission transaction, backfill recompute and
reconciliation — preserves this equality. -/
theorem global_total_equals_user_sum :
    (∀ ops : List Op, GlobalInvariant (runOps ops)) ∧
    ∀ (s : DBState) (op : Op), GlobalInvariant s → GlobalInvariant (applyOp op s) := by
  constructor
  · intro ops
    suffices hgen : ∀ s : DBState, GlobalInvariant s →
        GlobalInvariant (ops.foldl (fun s op => applyOp op s) s) by
      exact hgen DBState.init rfl
    induction ops with
    | nil => exact fun s h => h
    | cons op rest ih => exact fun s h => ih _ (applyOp_invariant op s h)
  · exact fun s op h => applyOp_invariant op s h

/-- Witness for C1: the preservation half applied to a concrete state and a
concrete submission. -/
theorem global_total_equals_user_sum_witness :
    GlobalInvariant (applyOp (Op.logAtomic "a1" "u1" 5 1) DBState.init) :=
  global_total_equals_user_sum.2 DBState.init (Op.logAtomic "a1" "u1" 5 1) rfl

/-- C2: submitting the same idempotency key (`action_id`) a second time
changes the per-user and global totals exactly once — the first call adds
the quantity once and reports `is_duplicate = false`; the second call (at
any later logical time) leaves the whole state unchanged and returns
`is_duplicate = true` with the same user and global totals that the first
call returned.  Concurrent duplicates serialise through the transaction's
FOR UPDATE locks, so the sequential composition covers both orders. -/
theorem log_emission_atomic_idempotent (aid : String) (uid : UserId) (lbs : Lbs)
    (now1 now2 : Nat) (s : DBState) (h : ¬ HasAction s.actions aid) :
    (log_emission_atomic aid uid lbs now1 s).2.global_total = s.global_total + lbs ∧
    statTotal (log_emission_atomic aid uid lbs now1 s).2.stats uid
      = statTotal s.stats uid + lbs ∧
    (log_emission_atomic aid uid lbs now1 s).1.is_duplicate = false ∧
    (log_emission_atomic aid uid lbs now2 (log_emission_atomic aid uid lbs now1 s).2).2
      = (log_emission_atomic aid uid lbs now1 s).2 ∧
    (log_emission_atomic aid uid lbs now2
        (log_emission_atomic aid uid lbs now1 s).2).1.is_duplicate = true ∧
    (log_emission_atomic aid uid lbs now2
        (log_emission_atomic aid uid lbs now1 s).2).1.user_total_lbs
      = (log_emission_atomic aid uid lbs now1 s).1.user_total_lbs ∧
    (log_emission_atomic aid uid lbs now2
        (log_emission_atomic aid uid lbs now1 s).2).1.global_total_lbs
      = (log_emission_atomic aid uid lbs now1 s).1.global_total_lbs := by
  have hdup : HasAction
      (({ action_id := aid, user_id := uid, emissions_saved_lbs := lbs,
          verified := true, verified_at := some now1, logged_at := now1 } : ActionRow)
        :: s.actions) aid :=
    ⟨_, List.mem_cons_self _ _, rfl⟩
  unfold log_emission_atomic
  simp only [if_neg h, if_pos hdup]
  simp [statTotal_upsertAddStats_self]

/-- Witness for C2: a concrete duplicate submission pair. -/
theorem log_emission_atomic_idempotent_witness :
    (log_emission_atomic "k1" "u7" (22.5 : Rat) 2
        (log_emission_atomic "k1" "u7" (22.5 : Rat) 1 DBState.init).2).2
      = (log_emission_atomic "k1" "u7" (22.5 : Rat) 1 DBState.init).2 :=
  (log_emission_atomic_idempotent "k1" "u7" (22.5 : Rat) 1 2 DBState.init
    (by decide)).2.2.2.1

/-- Scenario A of the spec, run through the atomic submission transaction:
`+10.2` for `user1`, then `+10.3` for `user2`, then `+10.4` for `user3`. -/
def scenarioA : DBState :=
  (log_emission_atomic "a3" "user3" (10.4 : Rat) 3
    ((log_emission_atomic "a2" "user2" (10.3 : Rat) 2
      ((log_emission_atomic "a1" "user1" (10.2 : Rat) 1 DBState.init).2)).2)).2

/-- C9: starting from the empty state, sequential verified submissions of
+10.2 (user1), +10.3 (user2), +10.4 (user3) give a global total of exactly
30.9 as an exact decimal, and `get_leaderboard` then lists user3, user2,
user1 with ranks 1, 2, 3. -/
theorem scenarioA_correct :
    scenarioA.global_total = (30.9 : Rat) ∧
    get_leaderboard 100 scenarioA =
      [⟨1, "user3", (10.4 : Rat)⟩, ⟨2, "user2", (10.3 : Rat)⟩,
       ⟨3, "user1", (10.2 : Rat)⟩] := by
  have h32 : (10.3 : Rat) < 10.4 := by norm_num
  have h12 : (10.2 : Rat) < 10.3 := by norm_num
  have h13 : (10.2 : Rat) < 10.4 := by norm_num
  have p1 : (0 : Rat) < 10.2 := by norm_num
  have p2 : (0 : Rat) < 10.3 := by norm_num
  have p3 : (0 : Rat) < 10.4 := by norm_num
  constructor
  · simp [scenarioA, log_emission_atomic, DBState.init, HasAction]
    norm_num
  · simp [scenarioA, log_emission_atomic, DBState.init, HasAction, upsertAddStats,
      statTotal, get_leaderboard, get_leaderboard_keys, last_verified_action_at,
      lbBefore, rankFrom, round2, round_eq, h32, h12, h13, p1, p2, p3,
      not_lt.mpr h32.le, not_lt.mpr h12.le, not_lt.mpr h13.le]
    norm_num [Int.floor_eq_iff]

/-- C8: a submission with malformed input — missing idempotency key, missing
user id, missing quantity, or a negative quantity — is rejected by
`logEmission` synchronously, before the database call: the result reports
failure, and the state (events and all aggregates) is unchanged. -/
theorem logEmission_rejects_malformed (req : EmissionLogRequest) (now : Nat) (s : DBState)
    (h : req.action_id = "" ∨ req.user_id = "" ∨ req.emissions_lbs = none ∨
         ∃ q, req.emissions_lbs = some q ∧ q < 0) :
    (logEmission req now s).1.success = false ∧ (logEmission req now s).2 = s := by
  unfold logEmission
  by_cases h1 : req.action_id = "" ∨ req.user_id = "" ∨ req.emissions_lbs = none
  · simp [if_pos h1, emissionLogFailure]
  · have hq : req.emissions_lbs.getD 0 < 0 := by
      rcases h with h | h | h | ⟨q, hq, hneg⟩
      · exact absurd (Or.inl h) h1
      · exact absurd (Or.inr (Or.inl h)) h1
      · exact absurd (Or.inr (Or.inr h)) h1
      · simp [hq, hneg]
    simp [if_neg h1, if_pos hq, emissionLogFailure]

/-- Witness for C8: a negative-quantity submission against the empty state. -/
theorem logEmission_rejects_malformed_witness :
    (logEmission ⟨"a1", "u1", some (-1)⟩ 0 DBState.init).1.success = false :=
  (logEmission_rejects_malformed ⟨"a1", "u1", some (-1)⟩ 0 DBState.init
    (Or.inr (Or.inr (Or.inr ⟨-1, rfl, by norm_num⟩)))).1

/-- An unverified action with positive custom emissions: the failing input
for C4. -/
def unverifiedAction : ActionRow :=
  { action_id := "raw1", user_id := "mallory", custom_emissions_saved := some 5,
    verified := false }

/-- C4 evaluation at the failing input: inserting an unverified action under
the migration trigger pair (`sync_user_stats_on_action_insert` fires on every
INSERT with no verification check, and the `user_stats` change propagates to
`global_emissions`) adds its quantity to both aggregates even though
`verified = false` — the raw-insert path the spec marks as a defect. -/
theorem raw_insert_aggregates_unverified :
    unverifiedAction.verified = false ∧
    statTotal (insert_action_migration [] unverifiedAction 7 DBState.init).stats "mallory" = 5 ∧
    (insert_action_migration [] unverifiedAction 7 DBState.init).global_total = 5 := by
  refine ⟨rfl, ?_, ?_⟩ <;>
  norm_num [insert_action_migration, DBState.init, sync_user_stats_on_action_insert,
    sync_global_emissions_on_stats_update, calc_v_lbs, templateLbs, unverifiedAction,
    upsertAddStats, statTotal, statCount]

/-- A state whose user totals sum to 30.9 while the global row reads 25: the
drift input for C3. -/
def driftState : DBState := ⟨[], [⟨"u1", (30.9 : Rat), 1, 1⟩], 25, 1, []⟩

/-- C3 counterexample: on this mismatch the reconciler detects the
discrepancy (`was_in_sync = false`) yet the corrections trail stays empty —
the audit insert is commented out in `hourly_sync_check`, so a mismatch is
detected without any CorrectionRecord being produced, contradicting the
claim that detection always writes exactly one record. -/
theorem reconciler_writes_no_correction :
    sumTotals driftState.stats ≠ driftState.global_total ∧
    (hourly_sync_check driftState).1.was_in_sync = false ∧
    (hourly_sync_check driftState).2.corrections = [] := by
  refine ⟨?_, ?_, ?_⟩ <;>
  norm_num [hourly_sync_check, sync_global_emissions_from_user_stats, driftState, sumTotals]

/-- C3 amended: whenever the reconciler sees `S ≠ G` it reports the mismatch
(`was_in_sync = false`, `fixed = true`, discrepancy `|S − G|` rounded to the
report's 2 decimals) and unconditionally sets the global total to `S` —
auto-correction is not configurable — but writes no CorrectionRecord: the
corrections trail is exactly what it was before. -/
theorem hourly_sync_check_detects_and_fixes (s : DBState)
    (h : sumTotals s.stats ≠ s.global_total) :
    (hourly_sync_check s).1.was_in_sync = false ∧
    (hourly_sync_check s).1.fixed = true ∧
    (hourly_sync_check s).1.discrepancy = round2 |sumTotals s.stats - s.global_total| ∧
    (hourly_sync_check s).2.global_total = sumTotals s.stats ∧
    (hourly_sync_check s).2.corrections = s.corrections ∧
    (hourly_sync_check s).2.stats = s.stats := by
  unfold hourly_sync_check sync_global_emissions_from_user_stats
  simp [if_neg h]

/-- Witness for the amended C3 at the drift input. -/
theorem hourly_sync_check_detects_and_fixes_witness :
    (hourly_sync_check driftState).2.global_total = sumTotals driftState.stats :=
  (hourly_sync_check_detects_and_fixes driftState
    (by norm_num [driftState, sumTotals])).2.2.2.1

/-- A stored total with six decimal places, for C7. -/
def preciseTotal : Lbs := 12.345678

/-- C7 counterexample: the leaderboard boundary applies
`parseFloat(x.toFixed(2))`, and `getGlobalTotalEmissions` likewise, so a
stored exact decimal with more than two decimal places does not survive the
interface: the delivered value differs from the stored one, refuting the
claim that every numeric total crosses every external interface exactly. -/
theorem leaderboard_total_not_exact :
    leaderboard_api_total preciseTotal ≠ preciseTotal ∧
    getGlobalTotalEmissions ⟨[], [], preciseTotal, 0, []⟩ ≠
      getGlobalTotalEmissionsExact ⟨[], [], preciseTotal, 0, []⟩ := by
  constructor <;>
  norm_num [leaderboard_api_total, getGlobalTotalEmissions, getGlobalTotalEmissionsExact,
    preciseTotal, round2, round_eq]

/-- C7 amended: the dedicated exact getters (`getUserTotalEmissions`,
`getGlobalTotalEmissionsExact`) deliver the stored decimal unchanged, while
a total crossing the leaderboard boundary is rounded to 2 decimal places: it
equals the stored decimal exactly when that decimal has at most two decimal
places (`(q·100).den = 1`), and the rounding error never exceeds `1/200`. -/
theorem api_total_roundtrip :
    (∀ (s : DBState) (uid : UserId),
      getUserTotalEmissions s uid = statTotal s.stats uid ∧
      getGlobalTotalEmissionsExact s = s.global_total) ∧
    ∀ q : Lbs, (leaderboard_api_total q = q ↔ (q * 100).den = 1) ∧
      |leaderboard_api_total q - q| ≤ 1 / 200 := by
  refine ⟨fun s uid => ⟨rfl, rfl⟩, fun q => ⟨⟨?_, ?_⟩, ?_⟩⟩
  · intro hEq
    have h100 : ((round (q * 100) : Int) : Rat) = q * 100 := by
      have := hEq
      unfold leaderboard_api_total round2 at this
      field_simp at this
      linarith [this]
    rw [← h100]
    exact Rat.den_intCast _
  · intro hden
    have hnum : ((q * 100).num : Rat) = q * 100 := by
      rw [← Rat.den_eq_one_iff]
      exact hden
    unfold leaderboard_api_total round2
    rw [← hnum, round_intCast, hnum]
    field_simp
  · unfold leaderboard_api_total round2
    have hb := abs_sub_round (q * 100)
    have h2 : ((round (q * 100) : Int) : Rat) / 100 - q
        = (((round (q * 100) : Int) : Rat) - q * 100) / 100 := by ring
    rw [h2, abs_div]
    rw [abs_of_pos (by norm_num : (0 : Rat) < 100)]
    rw [abs_sub_comm]
    linarith [hb]

/-- Witness for the amended C7: a two-decimal value crosses exactly. -/
theorem api_total_roundtrip_witness :
    leaderboard_api_total (1 / 4 : Rat) = (1 / 4 : Rat) :=
  ((api_total_roundtrip.2 (1 / 4)).1).mpr (by norm_num)

/-! ## Leaderboard ordering (claim C6) -/

lemma rankFrom_rank (l : List LBKey) :
    ∀ (n i : Nat) (h : i < (rankFrom n l).length),
      ((rankFrom n l).get ⟨i, h⟩).rank = n + i := by
  induction l with
  | nil => intro n i h; simp [rankFrom] at h
  | cons k ks ih =>
    intro n i h
    cases i with
    | zero => simp [rankFrom]
    | succ j =>
      have hj : j < (rankFrom (n + 1) ks).length := by
        simpa [rankFrom] using h
      have := ih (n + 1) j hj
      simpa [rankFrom, Nat.add_assoc, Nat.add_comm 1 j] using this

lemma rankFrom_mem (u : UserId) (l : List LBKey) :
    ∀ n : Nat, (∃ e ∈ rankFrom n l, e.user_id = u) ↔ ∃ k ∈ l, k.user_id = u := by
  induction l with
  | nil => intro n; simp [rankFrom]
  | cons k ks ih =>
    intro n
    simp only [rankFrom, List.mem_cons]
    constructor
    · rintro ⟨e, he | he, hu⟩
      · exact ⟨k, Or.inl rfl, by subst he; exact hu⟩
      · rcases (ih (n + 1)).mp ⟨e, he, hu⟩ with ⟨k2, hk2, hu2⟩
        exact ⟨k2, Or.inr hk2, hu2⟩
    · rintro ⟨k2, hk2 | hk2, hu2⟩
      · subst hk2
        exact ⟨_, Or.inl rfl, hu2⟩
      · rcases (ih (n + 1)).mpr ⟨k2, hk2, hu2⟩ with ⟨e, he, hu⟩
        exact ⟨e, Or.inr he, hu⟩

lemma get_leaderboard_keys_sorted (s : DBState) :
    List.Sorted lbBefore (get_leaderboard_keys s) :=
  List.sorted_insertionSort lbBefore _

/-- C6 amended: `get_leaderboard` returns exactly the users with a positive
exact total (whenever the LIMIT does not truncate), ordered by total
descending then by most recent verified-action timestamp descending, with
ranks 1, 2, 3, …; but SQL's ORDER BY carries no further tie-break key, so on
full ties the order is merely the stability of the sort over the underlying
row order — it is not the user-id-keyed total order the claim describes. -/
theorem get_leaderboard_spec (s : DBState) (limit : Nat)
    (hl : (s.stats.filter (fun r => decide (0 < r.total_lbs))).length ≤ limit) :
    List.Sorted lbBefore (get_leaderboard_keys s) ∧
    (∀ u : UserId, (∃ e ∈ get_leaderboard limit s, e.user_id = u) ↔
      ∃ r ∈ s.stats, r.user_id = u ∧ 0 < r.total_lbs) ∧
    ∀ (i : Nat) (h : i < (get_leaderboard limit s).length),
      ((get_leaderboard limit s).get ⟨i, h⟩).rank = i + 1 := by
  have hlen : (get_leaderboard_keys s).length
      = (s.stats.filter (fun r => decide (0 < r.total_lbs))).length := by
    unfold get_leaderboard_keys
    rw [List.length_insertionSort, List.length_map]
  have htake : (get_leaderboard_keys s).take limit = get_leaderboard_keys s :=
    List.take_of_length_le (by rw [hlen]; exact hl)
  refine ⟨get_leaderboard_keys_sorted s, ?_, ?_⟩
  · intro u
    unfold get_leaderboard
    rw [htake, rankFrom_mem]
    unfold get_leaderboard_keys
    simp only [List.mem_insertionSort, List.mem_map, List.mem_filter, decide_eq_true_eq]
    constructor
    · rintro ⟨k, ⟨r, ⟨hr, hpos⟩, hk⟩, hu⟩
      exact ⟨r, hr, by rw [← hu, ← hk], hpos⟩
    · rintro ⟨r, hr, hu, hpos⟩
      exact ⟨_, ⟨r, ⟨hr, hpos⟩, rfl⟩, hu⟩
  · intro i h
    unfold get_leaderboard at *
    have := rankFrom_rank ((get_leaderboard_keys s).take limit) 1 i h
    rwa [Nat.add_comm] at this

/-- Witness for the amended C6: on the scenario-A leaderboard, `user3`
appears exactly because it holds a positive total. -/
theorem get_leaderboard_spec_witness :
    (∃ e ∈ get_leaderboard 100 scenarioA, e.user_id = "user3") ↔
      ∃ r ∈ scenarioA.stats, r.user_id = "user3" ∧ 0 < r.total_lbs :=
  (get_leaderboard_spec scenarioA 100 (by
    have hs : scenarioA.stats.length = 3 := by
      simp [scenarioA, log_emission_atomic, DBState.init, HasAction, upsertAddStats]
    exact le_trans (List.length_filter_le _ _) (by rw [hs]; norm_num))).2.1 "user3"

/-- Two users fully tied on total and tie-break timestamp, in the two
possible underlying row orders. -/
def lbTieStateAB : DBState := ⟨[], [⟨"alice", 5, 1, 10⟩, ⟨"bob", 5, 1, 10⟩], 10, 2, []⟩

/-- The same `user_stats` table as `lbTieStateAB`, rows in swapped order. -/
def lbTieStateBA : DBState := ⟨[], [⟨"bob", 5, 1, 10⟩, ⟨"alice", 5, 1, 10⟩], 10, 2, []⟩

/-- C6 counterexample: the two states hold the same `user_stats` rows (a
permutation), both users are fully tied on total and timestamp, yet
`get_leaderboard` returns them in different orders — the ordering has no
deterministic third key (such as user id) and therefore is not a total
order, contradicting the claim. -/
theorem leaderboard_tie_not_deterministic :
    lbTieStateAB.stats.Perm lbTieStateBA.stats ∧
    get_leaderboard 100 lbTieStateAB ≠ get_leaderboard 100 lbTieStateBA := by
  constructor
  · exact List.Perm.swap _ _ _
  · have h5 : ¬ ((5 : Rat) < 5) := by norm_num
    have hp : (0 : Rat) < 5 := by norm_num
    simp [get_leaderboard, get_leaderboard_keys, lbTieStateAB, lbTieStateBA,
      last_verified_action_at, lbBefore, rankFrom, h5, hp, round2, round_eq]

/-! ## Recompute-upsert lemmas (claims C5 and C10) -/

lemma setUserTotals_nil (f : UserId → Lbs) (now : Nat) (st : List StatsRow) :
    setUserTotals f now [] st = st := rfl

lemma setUserTotals_cons (f : UserId → Lbs) (now : Nat) (u : UserId) (us : List UserId)
    (st : List StatsRow) :
    setUserTotals f now (u :: us) st = setUserTotals f now us (upsertSetStats u (f u) now st) :=
  rfl

lemma upsertSet_collapse (u : UserId) (v : Lbs) (n : Nat) (st : List StatsRow) :
    upsertSetStats u v n (upsertSetStats u v n st) = upsertSetStats u v n st := by
  induction st with
  | nil => simp [upsertSetStats]
  | cons r rs ih =>
    by_cases hr : r.user_id = u
    · simp [upsertSetStats, hr]
    · simp [upsertSetStats, hr, ih]

lemma upsertSet_swap {u x : UserId} (hux : u ≠ x) (v w : Lbs) (n m : Nat)
    (st : List StatsRow) (hu : ContainsUser st u) :
    upsertSetStats u v n (upsertSetStats x w m st)
      = upsertSetStats x w m (upsertSetStats u v n st) := by
  induction st with
  | nil => simp [ContainsUser] at hu
  | cons r rs ih =>
    by_cases hru : r.user_id = u
    · have hrx : r.user_id ≠ x := by rw [hru]; exact hux
      simp [upsertSetStats, hru, hrx, hux, Ne.symm hux]
    · by_cases hrx : r.user_id = x
      · simp [upsertSetStats, hru, hrx, hux, Ne.symm hux]
      · have hu2 : ContainsUser rs u := by
          rcases List.mem_cons.mp hu with h | h
          · exact absurd h.symm hru
          · exact h
        simp [upsertSetStats, hru, hrx, ih hu2]

lemma containsUser_setUserTotals_notmem (f : UserId → Lbs) (now : Nat) {u : UserId}
    {us : List UserId} (h : u ∉ us) (st : List StatsRow) :
    ContainsUser (setUserTotals f now us st) u ↔ ContainsUser st u := by
  induction us generalizing st with
  | nil => simp [setUserTotals_nil]
  | cons x xs ih =>
    have hx : u ≠ x := fun hh => h (hh ▸ List.mem_cons_self x xs)
    have hxs : u ∉ xs := fun hh => h (List.mem_cons_of_mem x hh)
    rw [setUserTotals_cons, ih hxs, containsUser_upsertSetStats]
    simp [hx]

lemma statTotal_setUserTotals_notmem (f : UserId → Lbs) (now : Nat) {u : UserId}
    {us : List UserId} (h : u ∉ us) (st : List StatsRow) :
    statTotal (setUserTotals f now us st) u = statTotal st u := by
  induction us generalizing st with
  | nil => simp [setUserTotals_nil]
  | cons x xs ih =>
    have hx : u ≠ x := fun hh => h (hh ▸ List.mem_cons_self x xs)
    have hxs : u ∉ xs := fun hh => h (List.mem_cons_of_mem x hh)
    rw [setUserTotals_cons, ih hxs, statTotal_upsertSetStats_other hx]

lemma statTotal_setUserTotals_mem (f : UserId → Lbs) (now : Nat) {u : UserId}
    {us : List UserId} (hnd : us.Nodup) (h : u ∈ us) (st : List StatsRow) :
    statTotal (setUserTotals f now us st) u = f u := by
  induction us generalizing st with
  | nil => simp at h
  | cons x xs ih =>
    rcases List.mem_cons.mp h with h1 | h1
    · subst h1
      have hnot : u ∉ xs := (List.nodup_cons.mp hnd).1
      rw [setUserTotals_cons, statTotal_setUserTotals_notmem f now hnot,
        statTotal_upsertSetStats_self]
    · exact setUserTotals_cons f now x xs st ▸ ih (List.nodup_cons.mp hnd).2 h1 _

lemma setUserTotals_pull (f : UserId → Lbs) (now : Nat) {u : UserId} {us : List UserId}
    (h : u ∉ us) (v : Lbs) (n : Nat) (st : List StatsRow) (hu : ContainsUser st u) :
    upsertSetStats u v n (setUserTotals f now us st)
      = setUserTotals f now us (upsertSetStats u v n st) := by
  induction us generalizing st with
  | nil => simp [setUserTotals_nil]
  | cons x xs ih =>
    have hx : u ≠ x := fun hh => h (hh ▸ List.mem_cons_self x xs)
    have hxs : u ∉ xs := fun hh => h (List.mem_cons_of_mem x hh)
    have hu2 : ContainsUser (upsertSetStats x (f x) now st) u :=
      (containsUser_upsertSetStats x u (f x) now st).mpr (Or.inl hu)
    rw [setUserTotals_cons, ih hxs _ hu2, upsertSet_swap hx, setUserTotals_cons]
    exact hu

lemma setUserTotals_idem (f : UserId → Lbs) (now : Nat) {us : List UserId}
    (hnd : us.Nodup) (st : List StatsRow) :
    setUserTotals f now us (setUserTotals f now us st) = setUserTotals f now us st := by
  induction us generalizing st with
  | nil => simp [setUserTotals_nil]
  | cons x xs ih =>
    have hnot : x ∉ xs := (List.nodup_cons.mp hnd).1
    have hnd2 : xs.Nodup := (List.nodup_cons.mp hnd).2
    have hu : ContainsUser (upsertSetStats x (f x) now st) x :=
      (containsUser_upsertSetStats x x (f x) now st).mpr (Or.inr rfl)
    rw [setUserTotals_cons, setUserTotals_cons,
      setUserTotals_pull f now hnot _ _ _ hu, upsertSet_collapse, ih hnd2]

/-! ## Zero-quantity actions (claim C10) -/

/-- A template yielding zero emissions. -/
def zeroTemplate : Template := ⟨"t0", 0⟩

/-- A committed action referencing the zero-yield template: no custom
emissions, so its computed quantity is 0. -/
def zeroYieldAction : ActionRow :=
  { action_id := "z1", user_id := "zoe", action_template_id := some "t0",
    verified := true, verified_at := some 1, logged_at := 1 }

/-- A ledger holding only the zero-yield action and no `user_stats` rows. -/
def zeroYieldState : DBState := ⟨[zeroYieldAction], [], 0, 0, []⟩

/-- C10 counterexample: `zoe`'s only committed event computes to quantity 0,
and she has no `user_stats` row — yet `backfill_totals` creates one for her
(with total 0), because its CTE admits every row with a non-null template
reference regardless of the computed value.  This refutes the claim that a
user whose only committed events have quantity 0 never acquires a
UserAggregate. -/
theorem backfill_creates_zero_aggregate :
    calc_v_lbs [zeroTemplate] zeroYieldAction = 0 ∧
    ¬ ContainsUser zeroYieldState.stats "zoe" ∧
    ContainsUser (backfill_totals [zeroTemplate] 3 zeroYieldState).stats "zoe" := by
  refine ⟨?_, ?_, ?_⟩
  · norm_num [calc_v_lbs, templateLbs, zeroTemplate, zeroYieldAction, kgToLbs]
  · simp [ContainsUser, zeroYieldState]
  · simp [backfill_totals, zeroYieldState, action_qualifies, zeroYieldAction,
      setUserTotals, upsertSetStats, ContainsUser, List.dedup_cons_of_not_mem]

/-- C10 amended: an inserted action whose computed quantity is 0 leaves the
aggregate state untouched — `update_emission_totals` creates no `user_stats`
row and modifies neither the user total nor the global total — and
`backfill_totals` creates no `user_stats` row for a user none of whose
events qualifies (positive custom emissions or a template reference); but a
zero-quantity event that references a template does qualify, so such a user
does acquire a zero-total row on backfill (see the counterexample). -/
theorem zero_quantity_actions_not_counted (tmpls : List Template) (a : ActionRow)
    (now : Nat) (s : DBState) (u : UserId)
    (hz : calc_v_lbs tmpls a = 0)
    (hq : ∀ b ∈ s.actions, b.user_id = u → action_qualifies b = false) :
    (update_emission_totals tmpls a now s).stats = s.stats ∧
    (update_emission_totals tmpls a now s).global_total = s.global_total ∧
    (ContainsUser (backfill_totals tmpls now s).stats u ↔ ContainsUser s.stats u) := by
  have hnot : ¬ (0 : Lbs) < calc_v_lbs tmpls a := by rw [hz]; exact lt_irrefl 0
  refine ⟨?_, ?_, ?_⟩
  · simp [update_emission_totals, hnot]
  · simp [update_emission_totals, hnot]
  · have hmem : u ∉ ((s.actions.filter action_qualifies).map (·.user_id)).dedup := by
      intro hmem
      rcases List.mem_map.mp (List.mem_dedup.mp hmem) with ⟨b, hb, hbu⟩
      have hbq := List.mem_filter.mp hb
      exact absurd hbq.2 (by rw [hq b hbq.1 hbu]; simp)
    exact containsUser_setUserTotals_notmem _ now hmem s.stats

/-- Witness for the amended C10: a zero-quantity insert against the empty
state, and the backfill frame for an untouched user. -/
theorem zero_quantity_actions_not_counted_witness :
    (update_emission_totals [zeroTemplate] zeroYieldAction 4 DBState.init).stats
      = DBState.init.stats :=
  (zero_quantity_actions_not_counted [zeroTemplate] zeroYieldAction 4 DBState.init "nobody"
    (by norm_num [calc_v_lbs, templateLbs, zeroTemplate, zeroYieldAction, kgToLbs])
    (by simp [DBState.init])).1

/-! ## Bulk backfill (claim C5) -/

lemma bulk_insert_state (es : List BulkActionLog) (s : DBState) :
    ∃ pre : List ActionRow, (bulk_insert es s).1 = { s with actions := pre ++ s.actions } := by
  induction es generalizing s with
  | nil => exact ⟨[], by simp [bulk_insert]⟩
  | cons e es ih =>
    by_cases h : HasAction s.actions e.action_id
    · rcases ih s with ⟨pre, hpre⟩
      exact ⟨pre, by simp [bulk_insert, if_pos h, hpre]⟩
    · rcases ih { s with actions := e.toActionRow :: s.actions } with ⟨pre, hpre⟩
      refine ⟨pre ++ [e.toActionRow], ?_⟩
      simp [bulk_insert, if_neg h, hpre]

lemma bulk_insert_hasAction_mono (es : List BulkActionLog) (s : DBState) (k : String)
    (h : HasAction s.actions k) : HasAction (bulk_insert es s).1.actions k := by
  rcases bulk_insert_state es s with ⟨pre, hpre⟩
  rcases h with ⟨a, ha, hk⟩
  exact ⟨a, by rw [hpre]; exact List.mem_append_right pre ha, hk⟩

lemma bulk_insert_all_present (es : List BulkActionLog) (s : DBState) :
    ∀ e ∈ es, HasAction (bulk_insert es s).1.actions e.action_id := by
  induction es generalizing s with
  | nil => intro e he; simp at he
  | cons e2 es ih =>
    intro e he
    rcases List.mem_cons.mp he with he | he
    · subst he
      by_cases h : HasAction s.actions e.action_id
      · simpa [bulk_insert, if_pos h] using bulk_insert_hasAction_mono es s e.action_id h
      · have h2 : HasAction ({ s with actions := e.toActionRow :: s.actions }).actions
            e.action_id := ⟨e.toActionRow, List.mem_cons_self _ _, rfl⟩
        simpa [bulk_insert, if_neg h] using
          bulk_insert_hasAction_mono es { s with actions := e.toActionRow :: s.actions }
            e.action_id h2
    · by_cases h : HasAction s.actions e2.action_id
      · simpa [bulk_insert, if_pos h] using ih s e he
      · simpa [bulk_insert, if_neg h] using
          ih { s with actions := e2.toActionRow :: s.actions } e he

lemma bulk_insert_of_all_present (es : List BulkActionLog) (s : DBState)
    (h : ∀ e ∈ es, HasAction s.actions e.action_id) :
    bulk_insert es s = (s, 0, es.length) := by
  induction es with
  | nil => rfl
  | cons e es ih =>
    have he := h e (List.mem_cons_self _ _)
    have hrest := ih (fun e2 he2 => h e2 (List.mem_cons_of_mem _ he2))
    simp [bulk_insert, if_pos he, hrest]

/-- C5: the bulk backfill never applies the batch incrementally — after the
run, every user touched by the batch holds exactly the sum of that user's
committed (verified) events in the ledger, and the global total is exactly
the sum of the per-user totals; re-running the identical batch leaves the
state bit-for-bit unchanged, with every event skipped (not an error) and
nothing inserted. -/
theorem bulk_backfill_recomputes (batch : List BulkActionLog) (now : Nat) (s : DBState)
    (u : UserId) (hu : u ∈ ((batch.filter (·.verified)).map (·.user_id)).dedup) :
    statTotal (bulkBackfillActions batch now s).2.stats u
      = verifiedUserSum (bulkBackfillActions batch now s).2.actions u ∧
    (bulkBackfillActions batch now s).2.global_total
      = sumTotals (bulkBackfillActions batch now s).2.stats ∧
    (bulkBackfillActions batch now (bulkBackfillActions batch now s).2).2
      = (bulkBackfillActions batch now s).2 ∧
    (bulkBackfillActions batch now (bulkBackfillActions batch now s).2).1.inserted_count = 0 ∧
    (bulkBackfillActions batch now (bulkBackfillActions batch now s).2).1.skipped_count
      = (batch.filter (·.verified)).length := by
  unfold bulkBackfillActions bulk_backfill_actions
  have hnd : (((batch.filter (·.verified)).map (·.user_id)).dedup).Nodup :=
    List.nodup_dedup _
  have hall : ∀ e ∈ batch.filter (·.verified),
      HasAction (bulk_insert (batch.filter (·.verified)) s).1.actions e.action_id :=
    bulk_insert_all_present _ s
  have hins2 := bulk_insert_of_all_present (batch.filter (·.verified))
    { (bulk_insert (batch.filter (·.verified)) s).1 with
      stats := setUserTotals
        (verifiedUserSum (bulk_insert (batch.filter (·.verified)) s).1.actions) now
        ((batch.filter (·.verified)).map (·.user_id)).dedup
        (bulk_insert (batch.filter (·.verified)) s).1.stats,
      global_total := sumTotals (setUserTotals
        (verifiedUserSum (bulk_insert (batch.filter (·.verified)) s).1.actions) now
        ((batch.filter (·.verified)).map (·.user_id)).dedup
        (bulk_insert (batch.filter (·.verified)) s).1.stats) }
    (fun e he => hall e he)
  refine ⟨?_, rfl, ?_, ?_, ?_⟩
  · exact statTotal_setUserTotals_mem _ now hnd hu _
  · simp only [hins2]
    rw [setUserTotals_idem _ now hnd]
  · simp only [hins2]
  · simp only [hins2]

/-- Witness for C5: a one-event batch against the empty state. -/
theorem bulk_backfill_recomputes_witness :
    (bulkBackfillActions [⟨"b1", "u1", 2, 1, true⟩] 5
        (bulkBackfillActions [⟨"b1", "u1", 2, 1, true⟩] 5 DBState.init).2).2
      = (bulkBackfillActions [⟨"b1", "u1", 2, 1, true⟩] 5 DBState.init).2 :=
  (bulk_backfill_recomputes [⟨"b1", "u1", 2, 1, true⟩] 5 DBState.init "u1"
    (by decide)).2.2.1

end Carbonite
